import Mathlib

/-!
Verification development for the SinglePageUpload invoice-ingestion client.

The definitions below are a shallow embedding of the client-side pipeline:

* `parseCSV`, `validateInvoiceData` (with `isValidUUID`, `isValidDate`,
  `formatDateString`, JS `parseFloat`): pure functions translated from
  `src/components/UploadPage/PDFViewer.tsx`.
* `runIngestion`: the batch loop of `processInvoiceFile` (same file),
  with the remote `Invoice.create` outcomes supplied by an oracle.
* `handleDeleteFile`, `handleClearProcessingHistory`: the cascade-delete
  handlers (same file), modelled as transformers of an explicit record-store
  state, remote delete/list outcomes supplied by oracles.
* `handleSubmitInvoices`: the submission transaction from
  `components/SubmitInvoices.tsx`.

JavaScript numbers are modelled by `JSNum` (NaN, signed infinities, and an
exact rational for the finite case; float64 rounding is abstracted to exact
rational arithmetic, which is irrelevant to the sign/NaN/infinity
classifications the validator performs).  JavaScript string comparison is
code-unit lexicographic (`lexLe`), and `toUpperCase` is modelled on ASCII
(`jsToUpper`), which agrees with JavaScript on every string the 8-entry
currency allow-set can match.
-/

/-- Split a character list at every occurrence of `sep`, keeping empty
segments, as JS `String.prototype.split` does with a one-character
separator. -/
def splitOnChar (sep : Char) : List Char → List (List Char)
  | [] => [[]]
  | c :: cs =>
    let r := splitOnChar sep cs
    if c = sep then [] :: r
    else (c :: r.headI) :: r.tail

/-- JS `s.split(sep)` for a one-character separator. -/
def jsSplit (sep : Char) (s : String) : List String :=
  (splitOnChar sep s.data).map String.mk

/-- JS `s.trim()`: strip leading and trailing whitespace.  (JS trims the full
Unicode white-space class; the ASCII class suffices for every input these
claims touch.) -/
def jsTrim (s : String) : String :=
  String.mk (((s.data.dropWhile Char.isWhitespace).reverse.dropWhile
    Char.isWhitespace).reverse)

/-- A raw CSV row: a JS object built by successive `row[header] = value`
assignments, modelled as the assignment list in order; a later assignment to
the same key overwrites, so lookup takes the last binding. -/
abbrev CsvRow : Type := List (String × String)

/-- Property read `row[k]`: `none` models JS `undefined` (key absent). The
last assignment wins, as for JS object property assignment. -/
def jsGet (row : CsvRow) (k : String) : Option String :=
  (List.find? (fun p => p.1 = k) (List.reverse row)).map (fun p => p.2)

/-- JS falsiness of a string-or-undefined value: `undefined` and `""` are
falsy, every other string truthy. -/
def jsFalsy : Option String → Bool
  | none => true
  | some s => s == ""

/-- `s.replace(/"/g, '')`: remove every double-quote character. -/
def stripQuotes (s : String) : String :=
  String.mk (s.data.filter (fun c => c ≠ '"'))

/-- One cleaned CSV cell: `v.trim().replace(/"/g, '')`. -/
def cleanCell (s : String) : String := stripQuotes (jsTrim s)

/-- The non-blank lines of the input: `csvText.split('\n').filter(line => line.trim())`. -/
def nonBlankLines (csvText : String) : List String :=
  (jsSplit '\n' csvText).filter (fun l => jsTrim l ≠ "")

/-- The header list: first line split on commas, each header trimmed and
unquoted. -/
def csvHeaders (csvText : String) : List String :=
  match nonBlankLines csvText with
  | [] => []
  | h :: _ => (jsSplit ',' h).map cleanCell

/-- The cleaned fields of one data line. -/
def csvFields (line : String) : List String :=
  (jsSplit ',' line).map cleanCell

/-- Build one row object: `headers.forEach((header, index) => row[header] =
values[index] || '')`.  `values[index]` is `undefined` past the end, and
`undefined || ''` and `'' || ''` are both `''`, so each header is bound to
its positional value or `""` when the line ran out of fields. -/
def mkRow : List String → List String → CsvRow
  | [], _ => []
  | h :: hs, [] => (h, "") :: mkRow hs []
  | h :: hs, v :: vs => (h, v) :: mkRow hs vs

/-- `parseCSV` from `PDFViewer.tsx`: split on newlines, drop blank lines,
require a header line plus at least one data line, key each data line's
cleaned fields by the cleaned header names. -/
def parseCSV (csvText : String) : List CsvRow :=
  let lines := nonBlankLines csvText
  if lines.length < 2 then []
  else
    let headers := (jsSplit ',' lines.headI).map cleanCell
    (lines.drop 1).map (fun line => mkRow headers (csvFields line))

example : parseCSV "a,b\n" = [] := rfl
example : (parseCSV "a,b\n1,2\n3").length = 2 := rfl
example : jsGet (mkRow ["a", "b"] ["1"]) "b" = some "" := rfl

/-! ## JavaScript numbers and `parseFloat` -/

/-- A JavaScript number as the validator observes it: NaN, a signed
infinity, or a finite value (modelled as an exact rational; float64 rounding
is abstracted away, which cannot change NaN-ness, sign, or comparison with
zero for the values `parseFloat` produces here). -/
inductive JSNum
  | nan
  | posInf
  | negInf
  | fin (q : ℚ)
deriving DecidableEq, Repr

/-- Numeric value of a digit character. -/
def digitVal (c : Char) : ℕ := c.toNat - '0'.toNat

/-- Value of a digit string read in base 10. -/
def digitsToNat (cs : List Char) : ℕ :=
  cs.foldl (fun n c => 10 * n + digitVal c) 0

/-- Exponent part of a JS decimal literal: optional sign then digits; an
`e` that is not followed by digits is not part of the longest numeric
prefix, so it contributes exponent 0. -/
def parseExpPart (cs : List Char) : ℤ :=
  match cs with
  | '+' :: t => if (t.takeWhile Char.isDigit).isEmpty then 0
                else (digitsToNat (t.takeWhile Char.isDigit) : ℤ)
  | '-' :: t => if (t.takeWhile Char.isDigit).isEmpty then 0
                else -(digitsToNat (t.takeWhile Char.isDigit) : ℤ)
  | t => if (t.takeWhile Char.isDigit).isEmpty then 0
         else (digitsToNat (t.takeWhile Char.isDigit) : ℤ)

/-- Finite part of `parseFloat` after the optional sign: longest prefix of
the shape `digits ['.' digits] [('e'|'E') exponent]`; NaN when no digit is
found on either side of the point.  The value
`(int + frac / 10^|frac|) * 10^exp` is computed as the integer reading of
the concatenated digits scaled by `10^(exp - |frac|)`. -/
def parseDecimal (neg : Bool) (cs : List Char) : JSNum :=
  let intDs := cs.takeWhile Char.isDigit
  let r1 := cs.dropWhile Char.isDigit
  let fracDs := match r1 with
    | '.' :: t => t.takeWhile Char.isDigit
    | _ => []
  let r2 := match r1 with
    | '.' :: t => t.dropWhile Char.isDigit
    | _ => r1
  if intDs.isEmpty && fracDs.isEmpty then JSNum.nan
  else
    let expVal : ℤ := match r2 with
      | 'e' :: t => parseExpPart t
      | 'E' :: t => parseExpPart t
      | _ => 0
    let mantNum : ℕ := digitsToNat (intDs ++ fracDs)
    let sc : ℤ := expVal - fracDs.length
    let v : ℚ :=
      if 0 ≤ sc then ((mantNum * 10 ^ sc.toNat : ℕ) : ℚ)
      else Rat.divInt (mantNum : ℤ) ((10 : ℤ) ^ (-sc).toNat)
    JSNum.fin (if neg then -v else v)

/-- `parseFloat` body after trimming leading whitespace: optional sign, then
either the literal keyword `Infinity` or a decimal literal. -/
def parseSigned : List Char → JSNum
  | '+' :: cs =>
    if List.isPrefixOf "Infinity".data cs then JSNum.posInf else parseDecimal false cs
  | '-' :: cs =>
    if List.isPrefixOf "Infinity".data cs then JSNum.negInf else parseDecimal true cs
  | cs =>
    if List.isPrefixOf "Infinity".data cs then JSNum.posInf else parseDecimal false cs

/-- JS `parseFloat(s)`: trim leading whitespace, then read the longest
prefix that is a signed decimal literal or `Infinity`; NaN when there is
none. -/
def jsParseFloat (s : String) : JSNum :=
  parseSigned (s.data.dropWhile Char.isWhitespace)

example : jsParseFloat "1500.50" = JSNum.fin (Rat.divInt 3001 2) := by decide
example : jsParseFloat "Infinity" = JSNum.posInf := by decide
example : jsParseFloat "abc" = JSNum.nan := by decide
example : jsParseFloat "-2e1" = JSNum.fin (-20) := by decide
example : jsParseFloat "undefined" = JSNum.nan := by decide
example : jsParseFloat "0" = JSNum.fin 0 := by decide

/-! ## Field validators from `PDFViewer.tsx` -/

/-- Hexadecimal digit (the regex has the `i` flag, so both cases). -/
def isHexDigit (c : Char) : Bool :=
  c.isDigit || ('a' ≤ c && c ≤ 'f') || ('A' ≤ c && c ≤ 'F')

/-- All characters of `s` are hex digits. -/
def allHex (s : String) : Bool := s.data.all isHexDigit

/-- `isValidUUID`: the anchored regex
`[0-9a-f]{8}-[0-9a-f]{4}-[1-5][0-9a-f]{3}-[89ab][0-9a-f]{3}-[0-9a-f]{12}`
with the case-insensitive flag, expressed over the dash-separated groups
(exactly five groups of lengths 8-4-4-4-12 is the same anchored shape). -/
def isValidUUID (s : String) : Bool :=
  match jsSplit '-' s with
  | [g1, g2, g3, g4, g5] =>
    g1.length == 8 && g2.length == 4 && g3.length == 4 &&
    g4.length == 4 && g5.length == 12 &&
    allHex g1 && allHex g2 && allHex g5 &&
    (match g3.data with
     | v :: rest => ('1' ≤ v && v ≤ '5') && rest.all isHexDigit
     | [] => false) &&
    (match g4.data with
     | v :: rest => (v == '8' || v == '9' || v == 'a' || v == 'b' ||
                     v == 'A' || v == 'B') && rest.all isHexDigit
     | [] => false)
  | _ => false

example : isValidUUID "550e8400-e29b-41d4-a716-446655440001" = true := by decide
example : isValidUUID "not-a-uuid" = false := by decide

/-- Digits of a `YYYY-MM-DD`-shaped string, when it has that exact shape. -/
def ymdOf (s : String) : Option (ℕ × ℕ × ℕ) :=
  match s.data with
  | [y1, y2, y3, y4, '-', m1, m2, '-', d1, d2] =>
    if (y1.isDigit && y2.isDigit && y3.isDigit && y4.isDigit &&
        m1.isDigit && m2.isDigit && d1.isDigit && d2.isDigit) then
      some (1000 * digitVal y1 + 100 * digitVal y2 + 10 * digitVal y3 + digitVal y4,
            10 * digitVal m1 + digitVal m2, 10 * digitVal d1 + digitVal d2)
    else none
  | _ => none

/-- Proleptic Gregorian leap year, as used by the ECMAScript date model. -/
def isLeapYear (y : ℕ) : Bool :=
  (y % 4 == 0 && y % 100 != 0) || y % 400 == 0

/-- Days in a month of the proleptic Gregorian calendar. -/
def daysInMonth (y m : ℕ) : ℕ :=
  if m == 2 then (if isLeapYear y then 29 else 28)
  else if m == 4 || m == 6 || m == 9 || m == 11 then 30 else 31

/-- `isValidDate`: the source requires both that `new Date(dateString)` is
not NaN and that the string matches `^\d{4}-\d{2}-\d{2}$`.  A string of that
shape is parsed by `Date` via the ISO date-time format, which accepts it
exactly when month and day are in calendar range. -/
def isValidDate (s : String) : Bool :=
  match ymdOf s with
  | none => false
  | some (y, m, d) => 1 ≤ m && m ≤ 12 && 1 ≤ d && d ≤ daysInMonth y m

example : isValidDate "2024-01-15" = true := by decide
example : isValidDate "2024-02-30" = false := by decide
example : isValidDate "2024-13-01" = false := by decide

/-- `formatDateString`: `new Date(s).toISOString().split('T')[0]`.  It is
only applied to strings that already passed `isValidDate`, i.e. valid
`YYYY-MM-DD` strings; those parse as UTC midnight and `toISOString` renders
back the identical zero-padded date, so on its call domain the function is
the identity. -/
def formatDateString (s : String) : String := s

/-- JS `a <= b` on strings: code-unit lexicographic order (code points
coincide with UTF-16 units on these all-ASCII dates). -/
def lexLe : List Char → List Char → Bool
  | [], _ => true
  | _ :: _, [] => false
  | a :: as, b :: bs =>
    if a.val < b.val then true
    else if b.val < a.val then false
    else lexLe as bs

/-- JS `a <= b` for strings. -/
def jsLeb (a b : String) : Bool := lexLe a.data b.data

/-- JS `toUpperCase`, restricted to ASCII case mapping (the Unicode cases
JS additionally folds cannot produce any of the 8 currency codes from
characters the allow-set comparison would otherwise accept). -/
def jsToUpper (s : String) : String := String.mk (s.data.map Char.toUpper)

/-- The fixed currency allow-set from the schema enum. -/
def validCurrencies : List String :=
  ["USD", "EUR", "GBP", "JPY", "CAD", "AUD", "CHF", "CNY"]

/-! ## `validateInvoiceData` -/

/-- The validated-invoice shape produced by `validateInvoiceData`. -/
structure InvoiceData where
  invoiceId : String
  sellerId : String
  debtorId : String
  currency : String
  amount : JSNum
  product : String
  issueDate : String
  dueDate : String
  isValid : Bool
  validationErrors : List String
deriving DecidableEq, Repr

/-- `"Row {n}: "`, the traceability tag on every message. -/
def rowTag (n : ℕ) : String := "Row " ++ toString n ++ ": "

/-- invoice_id error message. -/
def invoiceIdMsg (n : ℕ) : String :=
  rowTag n ++ "Invalid or missing invoice_id (must be UUID format like: 550e8400-e29b-41d4-a716-446655440001)"

/-- seller_id error message. -/
def sellerIdMsg (n : ℕ) : String :=
  rowTag n ++ "Invalid or missing seller_id (must be UUID format like: 550e8400-e29b-41d4-a716-446655440011)"

/-- debtor_id error message. -/
def debtorIdMsg (n : ℕ) : String :=
  rowTag n ++ "Invalid or missing debtor_id (must be UUID format like: 550e8400-e29b-41d4-a716-446655440021)"

/-- Currency error message; the source interpolates
`validCurrencies.join(', ')`, written out here. -/
def currencyMsg (n : ℕ) : String :=
  rowTag n ++ "Invalid currency. Must be one of: USD, EUR, GBP, JPY, CAD, AUD, CHF, CNY"

/-- Amount error message. -/
def amountMsg (n : ℕ) : String :=
  rowTag n ++ "Invalid amount (must be positive number like: 1500.50)"

/-- Product error message. -/
def productMsg (n : ℕ) : String :=
  rowTag n ++ "Product field is required"

/-- issue_date error message. -/
def issueDateMsg (n : ℕ) : String :=
  rowTag n ++ "Invalid issue_date (must be YYYY-MM-DD format like: 2024-01-15)"

/-- due_date error message. -/
def dueDateMsg (n : ℕ) : String :=
  rowTag n ++ "Invalid due_date (must be YYYY-MM-DD format like: 2024-02-15)"

/-- Cross-field error message. -/
def crossMsg (n : ℕ) : String :=
  rowTag n ++ "Due date must be after issue date"

/-- `!row.k || !isValidUUID(row.k)` for a UUID field `k`. -/
def badUUIDField (row : CsvRow) (k : String) : Bool :=
  jsFalsy (jsGet row k) || !isValidUUID ((jsGet row k).getD "")

/-- `!row.currency || !validCurrencies.includes(row.currency.toUpperCase())`. -/
def badCurrency (row : CsvRow) : Bool :=
  jsFalsy (jsGet row "currency") ||
    !(validCurrencies.contains (jsToUpper ((jsGet row "currency").getD "")))

/-- `parseFloat(row.amount)`; an absent property coerces to the string
`"undefined"`. -/
def rowAmount (row : CsvRow) : JSNum :=
  match jsGet row "amount" with
  | none => jsParseFloat "undefined"
  | some s => jsParseFloat s

/-- JS `isNaN(x)` for an already-numeric `x`. -/
def jsIsNaN : JSNum → Bool
  | JSNum.nan => true
  | _ => false

/-- JS `x <= 0` (false for NaN, which the source has already excluded by
the `isNaN` disjunct). -/
def jsLeqZero : JSNum → Bool
  | JSNum.nan => false
  | JSNum.posInf => false
  | JSNum.negInf => true
  | JSNum.fin q => decide (q ≤ 0)

/-- `isNaN(amount) || amount <= 0`. -/
def badAmount (row : CsvRow) : Bool :=
  jsIsNaN (rowAmount row) || jsLeqZero (rowAmount row)

/-- `!row.product || row.product.trim().length === 0`. -/
def badProduct (row : CsvRow) : Bool :=
  jsFalsy (jsGet row "product") ||
    (jsTrim ((jsGet row "product").getD "")).length == 0

/-- `!row.issue_date || !isValidDate(row.issue_date)`. -/
def badIssueDate (row : CsvRow) : Bool :=
  jsFalsy (jsGet row "issue_date") || !isValidDate ((jsGet row "issue_date").getD "")

/-- `!row.due_date || !isValidDate(row.due_date)`. -/
def badDueDate (row : CsvRow) : Bool :=
  jsFalsy (jsGet row "due_date") || !isValidDate ((jsGet row "due_date").getD "")

/-- The `invoice.issueDate` value after the issue_date block: formatted
date on success, the zero-value `""` otherwise. -/
def assignedIssueDate (row : CsvRow) : String :=
  if badIssueDate row then "" else formatDateString ((jsGet row "issue_date").getD "")

/-- The `invoice.dueDate` value after the due_date block. -/
def assignedDueDate (row : CsvRow) : String :=
  if badDueDate row then "" else formatDateString ((jsGet row "due_date").getD "")

/-- The cross-field condition
`invoice.issueDate && invoice.dueDate && invoice.dueDate <= invoice.issueDate`. -/
def crossBad (row : CsvRow) : Bool :=
  assignedIssueDate row != "" && assignedDueDate row != "" &&
    jsLeb (assignedDueDate row) (assignedIssueDate row)

/-- `validateInvoiceData` from `PDFViewer.tsx`: run the eight field checks
and the cross-field check in source order, each pushing its message on
failure or assigning the parsed field on success; finally `isValid` is
cleared and the accumulated list stored exactly when at least one error was
pushed. -/
def validateInvoiceData (row : CsvRow) (rowNumber : ℕ) : InvoiceData :=
  let errors : List String :=
    (if badUUIDField row "invoice_id" then [invoiceIdMsg rowNumber] else []) ++
    (if badUUIDField row "seller_id" then [sellerIdMsg rowNumber] else []) ++
    (if badUUIDField row "debtor_id" then [debtorIdMsg rowNumber] else []) ++
    (if badCurrency row then [currencyMsg rowNumber] else []) ++
    (if badAmount row then [amountMsg rowNumber] else []) ++
    (if badProduct row then [productMsg rowNumber] else []) ++
    (if badIssueDate row then [issueDateMsg rowNumber] else []) ++
    (if badDueDate row then [dueDateMsg rowNumber] else []) ++
    (if crossBad row then [crossMsg rowNumber] else [])
  { invoiceId := if badUUIDField row "invoice_id" then "" else (jsGet row "invoice_id").getD ""
    sellerId := if badUUIDField row "seller_id" then "" else (jsGet row "seller_id").getD ""
    debtorId := if badUUIDField row "debtor_id" then "" else (jsGet row "debtor_id").getD ""
    currency := if badCurrency row then "" else jsToUpper ((jsGet row "currency").getD "")
    amount := if badAmount row then JSNum.fin 0 else rowAmount row
    product := if badProduct row then "" else jsTrim ((jsGet row "product").getD "")
    issueDate := assignedIssueDate row
    dueDate := assignedDueDate row
    isValid := errors.isEmpty
    validationErrors := errors }

/-- A fully valid sample row (the spec's end-to-end example). -/
def sampleGoodRow : CsvRow :=
  [("invoice_id", "550e8400-e29b-41d4-a716-446655440001"),
   ("seller_id", "550e8400-e29b-41d4-a716-446655440011"),
   ("debtor_id", "550e8400-e29b-41d4-a716-446655440021"),
   ("currency", "USD"),
   ("amount", "1500.50"),
   ("product", "Widgets"),
   ("issue_date", "2024-01-15"),
   ("due_date", "2024-02-15")]

example : (validateInvoiceData sampleGoodRow 2).isValid = true := by decide
example : (validateInvoiceData sampleGoodRow 2).validationErrors = [] := by decide
example : (validateInvoiceData sampleGoodRow 2).amount = JSNum.fin (Rat.divInt 3001 2) := by decide

/-! ## The batch loop of `processInvoiceFile` -/

/-- Outcome of one remote `Invoice.create` call, supplied by an oracle:
success, a rejection carried in `result.errors`, or a thrown exception. -/
inductive CreateOutcome
  | ok
  | errs (msg : String)
  | exn (msg : String)
deriving DecidableEq, Repr

/-- One entry of the run-local `allErrors` list. -/
structure ProcessingError where
  row : ℕ
  invoice_id : Option String
  errors : List String
deriving DecidableEq, Repr

/-- Accumulated state of one ingestion run: the two counters, the run-local
error list, the rows for which `Invoice.create` was invoked, and the records
the store accepted. -/
structure IngestRun where
  successfulCount : ℕ
  failedCount : ℕ
  allErrors : List ProcessingError
  createCalls : List ℕ
  created : List InvoiceData
deriving DecidableEq, Repr

/-- What one row of a batch does, as a settled outcome: an invalid row is
counted failed without any store call (and without throwing); a valid row is
sent to `Invoice.create` and its rejection or exception is caught and
counted failed. -/
inductive RowOutcome
  | invalidRow (e : ProcessingError)
  | createFailed (e : ProcessingError)
  | createThrew (e : ProcessingError)
  | createdRec (globalIndex : ℕ) (rec : InvoiceData)
deriving DecidableEq, Repr

/-- The body of the per-row async closure in the batch loop. -/
def processRow (oracle : ℕ → CreateOutcome) (globalIndex : ℕ)
    (invoice : InvoiceData) : RowOutcome :=
  if !invoice.isValid then
    RowOutcome.invalidRow ⟨globalIndex, none, invoice.validationErrors⟩
  else
    match oracle globalIndex with
    | CreateOutcome.ok => RowOutcome.createdRec globalIndex invoice
    | CreateOutcome.errs m =>
      RowOutcome.createFailed ⟨globalIndex, some invoice.invoiceId, [m]⟩
    | CreateOutcome.exn m =>
      RowOutcome.createThrew ⟨globalIndex, some invoice.invoiceId, [m]⟩

/-- Fold one settled row outcome into the run state (counter increment and
error/record push). -/
def applyOutcome (acc : IngestRun) : RowOutcome → IngestRun
  | RowOutcome.invalidRow e =>
    { acc with failedCount := acc.failedCount + 1, allErrors := acc.allErrors ++ [e] }
  | RowOutcome.createFailed e =>
    { acc with failedCount := acc.failedCount + 1, allErrors := acc.allErrors ++ [e],
               createCalls := acc.createCalls ++ [e.row] }
  | RowOutcome.createThrew e =>
    { acc with failedCount := acc.failedCount + 1, allErrors := acc.allErrors ++ [e],
               createCalls := acc.createCalls ++ [e.row] }
  | RowOutcome.createdRec gi rec =>
    { acc with successfulCount := acc.successfulCount + 1,
               createCalls := acc.createCalls ++ [gi],
               created := acc.created ++ [rec] }

/-- One batch: its rows settle concurrently (`Promise.allSettled`), and each
row increments exactly one counter and pushes at most one error, so the
settled totals equal the in-order fold.  `start` is the batch's offset `i`;
the row at in-batch `index` reports `globalIndex = i + index + 1`. -/
def processBatch (oracle : ℕ → CreateOutcome) (start : ℕ)
    (batch : List InvoiceData) (acc : IngestRun) : IngestRun :=
  (batch.enum.map (fun p => processRow oracle (start + p.1 + 1) p.2)).foldl
    applyOutcome acc

/-- `invoiceData.slice(i, i + batchSize)` chunks, in order. -/
def chunksOf (n : ℕ) (l : List α) : List (List α) :=
  match l with
  | [] => []
  | x :: xs => (x :: xs).take n :: chunksOf n (xs.drop (n - 1))
termination_by l.length
decreasing_by simp; omega

/-- Sequential batch loop: batch `k+1` starts only after batch `k` settled. -/
def ingestLoop (oracle : ℕ → CreateOutcome) :
    ℕ → List (List InvoiceData) → IngestRun → IngestRun
  | _, [], acc => acc
  | start, b :: bs, acc =>
    ingestLoop oracle (start + b.length) bs (processBatch oracle start b acc)

/-- The zeroed counters before the loop. -/
def emptyRun : IngestRun := ⟨0, 0, [], [], []⟩

/-- The whole batch loop of `processInvoiceFile` over the validated rows
(batch size 25). -/
def runIngestion (oracle : ℕ → CreateOutcome) (rows : List InvoiceData) : IngestRun :=
  ingestLoop oracle 0 (chunksOf 25 rows) emptyRun

/-- Terminal job status derivation:
`failedCount === 0 ? 'COMPLETED' : (successfulCount === 0 ? 'FAILED' : 'COMPLETED')`. -/
def finalStatus (run : IngestRun) : String :=
  if run.failedCount == 0 then "COMPLETED"
  else if run.successfulCount == 0 then "FAILED" else "COMPLETED"

/-! ## Record-store state and the deletion handlers -/

/-- An `InvoiceUploadJob` record, with the fields the deletion handlers
read. -/
structure JobRec where
  id : String
  s3Key : String
deriving DecidableEq, Repr

/-- An `Invoice` record, with the fields the deletion handlers read. -/
structure InvRec where
  id : String
  uploadJobId : String
deriving DecidableEq, Repr

/-- The record store plus object storage, as the two handlers observe
them. -/
structure DBState where
  jobs : List JobRec
  invoices : List InvRec
  storageObjects : List String
deriving DecidableEq, Repr

/-- Success/failure of each remote call a deletion run makes. -/
structure DeleteOracle where
  jobsListOk : Bool
  invListOk : String → Bool
  invDeleteOk : String → Bool
  jobDeleteOk : String → Bool
  removeOk : Bool

/-- The `for (const job of associatedJobs)` loop of `handleDeleteFile`:
list this job's invoices, delete them concurrently (all-settled: each
deletion succeeds or fails independently), abort with the count-based
message if any failed, otherwise delete the job and continue.  A thrown
error keeps all mutations performed so far. -/
def deleteJobsLoop (o : DeleteOracle) : List JobRec → DBState → DBState × Option String
  | [], s => (s, none)
  | j :: rest, s =>
    if !o.invListOk j.id then (s, some "Failed to find associated invoices")
    else
      let assoc := s.invoices.filter (fun inv => inv.uploadJobId == j.id)
      let remaining :=
        s.invoices.filter (fun inv => !(inv.uploadJobId == j.id && o.invDeleteOk inv.id))
      let s1 : DBState :=
        if assoc.length > 0 then { s with invoices := remaining } else s
      let failedN := (assoc.filter (fun inv => !o.invDeleteOk inv.id)).length
      if assoc.length > 0 && failedN > 0 then
        (s1, some ("Failed to delete " ++ toString failedN ++ " out of " ++
          toString assoc.length ++ " invoices"))
      else if !o.jobDeleteOk j.id then
        (s1, some "Failed to delete processing job")
      else
        deleteJobsLoop o rest
          { s1 with jobs := s1.jobs.filter (fun jb => jb.id != j.id) }

/-- `handleDeleteFile`: find the jobs whose `s3Key` is the path, run the
cascade loop, and only if it fully succeeded remove the storage object.
The returned `Option String` is the error surfaced by the `catch` block
(`none` = full success). -/
def handleDeleteFile (o : DeleteOracle) (s : DBState) (filePath : String) :
    DBState × Option String :=
  if !o.jobsListOk then (s, some "Failed to find associated processing job")
  else
    let matched := s.jobs.filter (fun j => j.s3Key == filePath)
    match deleteJobsLoop o matched s with
    | (s1, some e) => (s1, some e)
    | (s1, none) =>
      if !o.removeOk then (s1, some "Failed to delete file from S3")
      else ({ s1 with storageObjects :=
        s1.storageObjects.filter (fun p => p != filePath) }, none)

/-- `handleClearProcessingHistory`: delete every job in the subscribed
`processingJobs` list concurrently (all-settled), count the failures, and
warn when some deletions failed.  Invoice records are never touched. -/
def handleClearProcessingHistory (o : DeleteOracle) (s : DBState) :
    DBState × Option String :=
  let failed := (s.jobs.filter (fun j => !o.jobDeleteOk j.id)).length
  let total := s.jobs.length
  ({ s with jobs := s.jobs.filter (fun j => !o.jobDeleteOk j.id) },
   if failed > 0 then
     some ("Warning: " ++ toString failed ++ " out of " ++ toString total ++
       " jobs could not be deleted")
   else none)

/-- No `Invoice` outlives its owning `InvoiceUploadJob`: every invoice's
`uploadJobId` resolves to a live job. -/
def orphanFree (s : DBState) : Prop :=
  ∀ inv ∈ s.invoices, ∃ j ∈ s.jobs, j.id = inv.uploadJobId

/-! ## The submission transaction (`SubmitInvoices.tsx`) -/

/-- The fields of a valid `Invoice` that the submission loops use: the
record id (deletion key) and the business `invoiceId` (messages). -/
structure SubInvoice where
  id : String
  invoiceId : String
deriving DecidableEq, Repr

/-- Outcomes of the remote calls and environment of one submission run. -/
structure SubmitOutcomes where
  copy : ℕ → CreateOutcome
  del : ℕ → CreateOutcome
  clearAvailable : Bool
  refreshThrows : Bool

/-- Accumulator of step 1 (copy loop). -/
structure CopyPhase where
  successCount : ℕ
  failCount : ℕ
  submittedFor : List String
  errors : List String
deriving DecidableEq, Repr

/-- One iteration of step 1: `SubmittedInvoice.create` for the row at this
index; a rejection or exception is caught, counted, and message-logged. -/
def copyStep (o : SubmitOutcomes) (acc : CopyPhase) (p : ℕ × SubInvoice) : CopyPhase :=
  match o.copy p.1 with
  | CreateOutcome.ok =>
    { acc with successCount := acc.successCount + 1,
               submittedFor := acc.submittedFor ++ [p.2.id] }
  | CreateOutcome.errs m =>
    { acc with failCount := acc.failCount + 1,
               errors := acc.errors ++
                 ["Failed to submit invoice " ++ p.2.invoiceId ++ ": " ++ m] }
  | CreateOutcome.exn m =>
    { acc with failCount := acc.failCount + 1,
               errors := acc.errors ++
                 ["Failed to submit invoice " ++ p.2.invoiceId ++ ": " ++ m] }

/-- Accumulator of step 2 (delete loop). -/
structure DeletePhase where
  deleteSuccessCount : ℕ
  deletedIds : List String
  errors : List String
deriving DecidableEq, Repr

/-- One iteration of step 2: the source deletes the row at index `i`
whenever `i < successCount` ("Simple approach - assumes they were processed
in order"), a positional slice rather than the set of rows whose copy
succeeded. -/
def deleteStep (o : SubmitOutcomes) (successCount : ℕ) (acc : DeletePhase)
    (p : ℕ × SubInvoice) : DeletePhase :=
  if p.1 < successCount then
    match o.del p.1 with
    | CreateOutcome.ok =>
      { acc with deleteSuccessCount := acc.deleteSuccessCount + 1,
                 deletedIds := acc.deletedIds ++ [p.2.id] }
    | CreateOutcome.errs m =>
      { acc with errors := acc.errors ++
          ["Failed to delete original invoice " ++ p.2.invoiceId ++ ": " ++ m] }
    | CreateOutcome.exn m =>
      { acc with errors := acc.errors ++
          ["Failed to delete original invoice " ++ p.2.invoiceId ++ ": " ++ m] }
  else acc

/-- Result of one submission run, including whether the dashboard refresh
and the uploaded-files cache clear were invoked. -/
structure SubmitResult where
  successCount : ℕ
  failCount : ℕ
  deleteSuccessCount : ℕ
  submittedFor : List String
  deletedIds : List String
  errors : List String
  refreshInvoked : Bool
  clearInvoked : Bool
  message : String
deriving DecidableEq, Repr

/-- `handleSubmitInvoices`: copy every valid invoice sequentially (step 1),
delete the first `successCount` originals (step 2, skipped when nothing was
copied), refresh the dashboard (step 3), call `window.clearUploadedFiles`
when installed (step 4), then report full or partial success.  Per-row
failures are caught inside the loops; only a failure of the refresh itself
reaches the outer `catch`. -/
def handleSubmitInvoices (o : SubmitOutcomes) (validInvoices : List SubInvoice) :
    SubmitResult :=
  let cp := validInvoices.enum.foldl (copyStep o) ⟨0, 0, [], []⟩
  let dp : DeletePhase :=
    if cp.successCount > 0 then
      validInvoices.enum.foldl (deleteStep o cp.successCount) ⟨0, [], cp.errors⟩
    else ⟨0, [], cp.errors⟩
  if o.refreshThrows then
    { successCount := cp.successCount, failCount := cp.failCount,
      deleteSuccessCount := dp.deleteSuccessCount,
      submittedFor := cp.submittedFor, deletedIds := dp.deletedIds,
      errors := dp.errors, refreshInvoked := true, clearInvoked := false,
      message := "❌ Submission failed" }
  else
    { successCount := cp.successCount, failCount := cp.failCount,
      deleteSuccessCount := dp.deleteSuccessCount,
      submittedFor := cp.submittedFor, deletedIds := dp.deletedIds,
      errors := dp.errors, refreshInvoked := true,
      clearInvoked := o.clearAvailable,
      message :=
        if cp.failCount == 0 then
          "✅ Successfully submitted " ++ toString cp.successCount ++
            " invoices and cleared workspace!"
        else
          "⚠️ Partially successful: " ++ toString cp.successCount ++
            " submitted, " ++ toString cp.failCount ++ " failed, workspace cleared" }

/-! ## Helper lemmas -/

/-- Membership in one conditional error push. -/
lemma mem_ite_singleton (b : Bool) (m x : String) :
    (x ∈ if b then [m] else []) ↔ (b = true ∧ x = m) := by
  cases b <;> simp

/-- Length of one conditional error push. -/
lemma length_ite_singleton (b : Bool) (m : String) :
    (if b then [m] else []).length = if b then 1 else 0 := by
  cases b <;> simp

/-- String concatenation is left-cancellative. -/
lemma string_append_left_inj (p a b : String) : (p ++ a = p ++ b) ↔ a = b := by
  constructor
  · intro h
    have hd : p.data ++ a.data = p.data ++ b.data := congrArg String.data h
    have := List.append_cancel_left hd
    cases a
    cases b
    exact congrArg String.mk this
  · intro h
    rw [h]

/-- A string passing `isValidDate` is non-empty. -/
lemma isValidDate_ne_empty {s : String} (h : isValidDate s = true) : s ≠ "" := by
  intro he
  subst he
  exact absurd h (by decide)

/-! ## C6: isValid iff no errors; errors accumulate -/

/-- C6.  For every raw row and row number, `validateInvoiceData` returns
`isValid = true` iff the returned error list is empty; the checks accumulate
without short-circuiting: the error list's length is the number of violated
rules, and each violated rule contributes its own message naming that
field/rule (so one violation yields exactly that one entry, two unrelated
violations yield the two corresponding entries). -/
theorem validate_isValid_iff_errors_accumulate (row : CsvRow) (n : ℕ) :
    ((validateInvoiceData row n).isValid = true ↔
      (validateInvoiceData row n).validationErrors = []) ∧
    (validateInvoiceData row n).validationErrors.length =
      ((if badUUIDField row "invoice_id" then 1 else 0) +
       (if badUUIDField row "seller_id" then 1 else 0) +
       (if badUUIDField row "debtor_id" then 1 else 0) +
       (if badCurrency row then 1 else 0) +
       (if badAmount row then 1 else 0) +
       (if badProduct row then 1 else 0) +
       (if badIssueDate row then 1 else 0) +
       (if badDueDate row then 1 else 0) +
       (if crossBad row then 1 else 0)) ∧
    (badUUIDField row "invoice_id" = true →
      invoiceIdMsg n ∈ (validateInvoiceData row n).validationErrors) ∧
    (badUUIDField row "seller_id" = true →
      sellerIdMsg n ∈ (validateInvoiceData row n).validationErrors) ∧
    (badUUIDField row "debtor_id" = true →
      debtorIdMsg n ∈ (validateInvoiceData row n).validationErrors) ∧
    (badCurrency row = true →
      currencyMsg n ∈ (validateInvoiceData row n).validationErrors) ∧
    (badAmount row = true →
      amountMsg n ∈ (validateInvoiceData row n).validationErrors) ∧
    (badProduct row = true →
      productMsg n ∈ (validateInvoiceData row n).validationErrors) ∧
    (badIssueDate row = true →
      issueDateMsg n ∈ (validateInvoiceData row n).validationErrors) ∧
    (badDueDate row = true →
      dueDateMsg n ∈ (validateInvoiceData row n).validationErrors) ∧
    (crossBad row = true →
      crossMsg n ∈ (validateInvoiceData row n).validationErrors) := by
  refine ⟨?_, ?_, ?_, ?_, ?_, ?_, ?_, ?_, ?_, ?_, ?_⟩
  · simp [validateInvoiceData, List.isEmpty_iff]
  · simp [validateInvoiceData, List.length_append, length_ite_singleton]
    omega
  all_goals intro h
  all_goals simp [validateInvoiceData, List.mem_append, mem_ite_singleton, h]

/-- A row whose only violation is a non-positive amount. -/
def negAmountRow : CsvRow := sampleGoodRow ++ [("amount", "-5")]

/-- Witness for C6: a row violating exactly the amount rule carries exactly
the amount message. -/
theorem validate_isValid_iff_errors_accumulate_witness :
    amountMsg 2 ∈ (validateInvoiceData negAmountRow 2).validationErrors ∧
    (validateInvoiceData negAmountRow 2).validationErrors.length = 1 ∧
    (validateInvoiceData negAmountRow 2).isValid = false :=
  ⟨(validate_isValid_iff_errors_accumulate negAmountRow 2).2.2.2.2.2.2.1 (by decide),
   by decide, by decide⟩

/-! ## C7: cross-field date rule -/

/-- C7.  When both date fields are individually valid, the cross-field
error is added exactly when `dueDate <= issueDate` (i.e. not strictly
after); the individually-valid date fields keep their formatted values, and
the violation adds exactly one more entry on top of the other field
violations. -/
theorem validate_cross_field_rule (row : CsvRow) (n : ℕ) (di dd : String)
    (h1 : jsGet row "issue_date" = some di) (h2 : isValidDate di = true)
    (h3 : jsGet row "due_date" = some dd) (h4 : isValidDate dd = true) :
    (validateInvoiceData row n).issueDate = di ∧
    (validateInvoiceData row n).dueDate = dd ∧
    (crossMsg n ∈ (validateInvoiceData row n).validationErrors ↔ jsLeb dd di = true) ∧
    (validateInvoiceData row n).validationErrors.length =
      ((if badUUIDField row "invoice_id" then 1 else 0) +
       (if badUUIDField row "seller_id" then 1 else 0) +
       (if badUUIDField row "debtor_id" then 1 else 0) +
       (if badCurrency row then 1 else 0) +
       (if badAmount row then 1 else 0) +
       (if badProduct row then 1 else 0) +
       (if jsLeb dd di then 1 else 0)) := by
  have hdine : di ≠ "" := isValidDate_ne_empty h2
  have hddne : dd ≠ "" := isValidDate_ne_empty h4
  have hbi : badIssueDate row = false := by
    simp [badIssueDate, h1, jsFalsy, h2, hdine]
  have hbd : badDueDate row = false := by
    simp [badDueDate, h3, jsFalsy, h4, hddne]
  have haI : assignedIssueDate row = di := by
    simp [assignedIssueDate, hbi, formatDateString, h1]
  have haD : assignedDueDate row = dd := by
    simp [assignedDueDate, hbd, formatDateString, h3]
  have hcb : crossBad row = jsLeb dd di := by
    simp [crossBad, haI, haD, hdine, hddne]
  refine ⟨?_, ?_, ?_, ?_⟩
  · simp [validateInvoiceData, haI]
  · simp [validateInvoiceData, haD]
  · simp [validateInvoiceData, List.mem_append, mem_ite_singleton, hcb,
      invoiceIdMsg, sellerIdMsg, debtorIdMsg, currencyMsg, amountMsg,
      productMsg, issueDateMsg, dueDateMsg, crossMsg, string_append_left_inj,
      hbi, hbd]
  · simp [validateInvoiceData, List.length_append, length_ite_singleton,
      hbi, hbd, hcb]
    omega

/-- A row equal to the sample but with `due_date` equal to `issue_date`. -/
def eqDatesRow : CsvRow := sampleGoodRow ++ [("due_date", "2024-01-15")]

/-- A row equal to the sample but with `due_date` before `issue_date`. -/
def revDatesRow : CsvRow := sampleGoodRow ++ [("due_date", "2024-01-01")]

/-- Witness for C7: equal dates and reversed dates both yield the
cross-field error; a due date one month after does not. -/
theorem validate_cross_field_rule_witness :
    crossMsg 2 ∈ (validateInvoiceData eqDatesRow 2).validationErrors ∧
    crossMsg 2 ∈ (validateInvoiceData revDatesRow 2).validationErrors ∧
    crossMsg 2 ∉ (validateInvoiceData sampleGoodRow 2).validationErrors :=
  ⟨((validate_cross_field_rule eqDatesRow 2 "2024-01-15" "2024-01-15"
      (by decide) (by decide) (by decide) (by decide)).2.2.1).mpr (by decide),
   ((validate_cross_field_rule revDatesRow 2 "2024-01-15" "2024-01-01"
      (by decide) (by decide) (by decide) (by decide)).2.2.1).mpr (by decide),
   fun hmem =>
     absurd (((validate_cross_field_rule sampleGoodRow 2 "2024-01-15" "2024-02-15"
       (by decide) (by decide) (by decide) (by decide)).2.2.1).mp hmem)
       (by decide)⟩

/-! ## C8: the amount rule -/

/-- A row equal to the sample but with amount `"Infinity"`. -/
def infinityAmountRow : CsvRow := sampleGoodRow ++ [("amount", "Infinity")]

/-- C8 counterexample.  The claim "an amount error is reported exactly when
the amount does not parse as a finite number strictly greater than 0" is
false: `parseFloat("Infinity")` is `Infinity`, not finite, yet the check
`isNaN(amount) || amount <= 0` accepts it and reports no error. -/
theorem validate_amount_finiteness_counterexample :
    ¬ (∀ (row : CsvRow) (n : ℕ),
        amountMsg n ∈ (validateInvoiceData row n).validationErrors ↔
          ¬ (∃ q : ℚ, 0 < q ∧ rowAmount row = JSNum.fin q)) := by
  intro h
  have hnotmem : amountMsg 2 ∉ (validateInvoiceData infinityAmountRow 2).validationErrors := by
    decide
  apply hnotmem
  apply (h infinityAmountRow 2).mpr
  rintro ⟨q, -, hq⟩
  have hinf : rowAmount infinityAmountRow = JSNum.posInf := by decide
  rw [hinf] at hq
  exact JSNum.noConfusion hq

/-- C8 amended.  An amount error is reported exactly when
`parseFloat(row.amount)` is NaN or `<= 0`; a non-finite positive parse
(`Infinity`) is accepted.  When no amount error is reported the stored
amount is exactly the parsed value (finite or `Infinity`). -/
theorem validate_amount_rule (row : CsvRow) (n : ℕ) :
    (amountMsg n ∈ (validateInvoiceData row n).validationErrors ↔
      (jsIsNaN (rowAmount row) = true ∨ jsLeqZero (rowAmount row) = true)) ∧
    (jsIsNaN (rowAmount row) = false → jsLeqZero (rowAmount row) = false →
      (validateInvoiceData row n).amount = rowAmount row) := by
  constructor
  · simp [validateInvoiceData, List.mem_append, mem_ite_singleton,
      invoiceIdMsg, sellerIdMsg, debtorIdMsg, currencyMsg, amountMsg,
      productMsg, issueDateMsg, dueDateMsg, crossMsg, string_append_left_inj,
      badAmount]
  · intro hn hz
    simp [validateInvoiceData, badAmount, hn, hz]

/-- Witness for C8 (amended): with amount `"Infinity"` no amount error is
reported and the stored amount is `Infinity`; with amount `"0"` the error
is reported. -/
theorem validate_amount_rule_witness :
    (validateInvoiceData infinityAmountRow 2).amount = JSNum.posInf ∧
    amountMsg 2 ∈ (validateInvoiceData (sampleGoodRow ++ [("amount", "0")]) 2).validationErrors := by
  constructor
  · have h := (validate_amount_rule infinityAmountRow 2).2 (by decide) (by decide)
    rw [h]
    decide
  · exact (validate_amount_rule (sampleGoodRow ++ [("amount", "0")]) 2).1.mpr
      (Or.inr (by decide))

/-! ## C9: `parseCSV` shape -/

/-- Lookup after one more JS property assignment: the later bindings (the
tail, assigned afterwards) take precedence over the head binding. -/
lemma jsGet_cons (k v key : String) (rest : CsvRow) :
    jsGet ((k, v) :: rest) key =
      match jsGet rest key with
      | some w => some w
      | none => if k = key then some v else none := by
  unfold jsGet
  rw [List.reverse_cons, List.find?_append]
  cases hfind : List.find? (fun p => p.1 = key) rest.reverse with
  | some p => simp [hfind]
  | none =>
    by_cases hk : k = key <;> simp [hfind, hk, List.find?]

/-- A key bound by no header looks up to `undefined`. -/
lemma jsGet_mkRow_not_mem :
    ∀ (headers values : List String) (key : String), key ∉ headers →
      jsGet (mkRow headers values) key = none := by
  intro headers
  induction headers with
  | nil => intro values key _; rfl
  | cons h hs ih =>
    intro values key hk
    have hne : h ≠ key := by intro he; exact hk (by simp [he])
    have hk2 : key ∉ hs := by intro hm; exact hk (by simp [hm])
    cases values with
    | nil => rw [mkRow, jsGet_cons, ih [] key hk2]; simp [hne]
    | cons v vs => rw [mkRow, jsGet_cons, ih vs key hk2]; simp [hne]

/-- Looking up the `j`-th header of a duplicate-free header list yields the
`j`-th field, or `""` when the line had fewer fields. -/
lemma jsGet_mkRow :
    ∀ (headers values : List String) (j : ℕ), j < headers.length →
      headers.Nodup →
      jsGet (mkRow headers values) (headers.getD j "") = some (values.getD j "") := by
  intro headers
  induction headers with
  | nil => intro values j hj _; simp at hj
  | cons h hs ih =>
    intro values j hj hnd
    obtain ⟨hmem, hnd2⟩ := List.nodup_cons.mp hnd
    match j with
    | 0 =>
      rw [List.getD_cons_zero]
      cases values with
      | nil =>
        rw [mkRow, jsGet_cons, jsGet_mkRow_not_mem hs [] h hmem]
        simp
      | cons v vs =>
        rw [mkRow, jsGet_cons, jsGet_mkRow_not_mem hs vs h hmem]
        simp
    | Nat.succ j =>
      have hj2 : j < hs.length := by simpa using hj
      have hkmem : hs.getD j "" ∈ hs := by
        rw [List.getD_eq_getElem _ _ hj2]
        exact List.getElem_mem hj2
      have hne : h ≠ hs.getD j "" := fun he => hmem (he ▸ hkmem)
      rw [List.getD_cons_succ]
      cases values with
      | nil =>
        rw [mkRow, jsGet_cons, ih [] j hj2 hnd2]
        simp
      | cons v vs =>
        rw [mkRow, jsGet_cons, ih vs j hj2 hnd2]
        simp

/-- C9.  `parseCSV` returns zero rows exactly when fewer than two non-blank
lines are present; otherwise one raw row per non-blank data line, in order;
each row is keyed by the first line's headers, a data line with fewer
comma-separated fields than headers binding each missing column to the
empty string (the general binding is the positional field, defaulted to
`""`). -/
theorem parseCSV_row_shape (t : String) :
    ((parseCSV t = []) ↔ (nonBlankLines t).length < 2) ∧
    (parseCSV t).length = (nonBlankLines t).length - 1 ∧
    ((csvHeaders t).Nodup →
      ∀ i, i < (parseCSV t).length →
      ∀ j, j < (csvHeaders t).length →
        jsGet ((parseCSV t).getD i []) ((csvHeaders t).getD j "") =
          some ((csvFields ((nonBlankLines t).getD (i + 1) "")).getD j "")) := by
  by_cases hlen : (nonBlankLines t).length < 2
  · have hP : parseCSV t = [] := by
      simp only [parseCSV]
      rw [if_pos hlen]
    refine ⟨by simp [hP, hlen], ?_, ?_⟩
    · rw [hP]
      simp only [List.length_nil]
      omega
    · intro _ i hi
      rw [hP] at hi
      simp at hi
  · obtain ⟨h0, rest, hcons⟩ : ∃ h0 rest, nonBlankLines t = h0 :: rest := by
      cases hnb : nonBlankLines t with
      | nil => rw [hnb] at hlen; simp at hlen
      | cons a as => exact ⟨a, as, rfl⟩
    have hHeadI : (nonBlankLines t).headI = h0 := by rw [hcons]; rfl
    have hP : parseCSV t = ((nonBlankLines t).drop 1).map
        (fun line => mkRow ((jsSplit ',' h0).map cleanCell) (csvFields line)) := by
      simp only [parseCSV]
      rw [if_neg hlen, hHeadI]
    have hHead : csvHeaders t = (jsSplit ',' h0).map cleanCell := by
      rw [csvHeaders, hcons]
    refine ⟨?_, ?_, ?_⟩
    · rw [hP]
      simp only [List.map_eq_nil_iff, List.drop_eq_nil_iff]
      omega
    · rw [hP]
      simp
    · intro hnd i hi j hj
      have hiP : i < ((nonBlankLines t).drop 1).length := by
        rw [hP] at hi
        simpa using hi
      have hi2 : i + 1 < (nonBlankLines t).length := by
        simp only [List.length_drop] at hiP
        omega
      rw [hP, List.getD_eq_getElem _ _ (by simpa using hiP), List.getElem_map,
        List.getD_eq_getElem _ _ hi2]
      have hdrop : ((nonBlankLines t).drop 1)[i] = (nonBlankLines t)[i + 1] := by
        rw [List.getElem_drop]
        congr 1
        omega
      rw [hdrop, hHead] at *
      exact jsGet_mkRow _ _ j hj hnd

/-- Witness for C9: in `"a,b\n1"` the single data row binds the second
header `b`, which has no field, to the empty string. -/
theorem parseCSV_row_shape_witness :
    jsGet ((parseCSV "a,b\n1").getD 0 []) ((csvHeaders "a,b\n1").getD 1 "") = some "" := by
  have h := (parseCSV_row_shape "a,b\n1").2.2 (by decide) 0 (by decide) 1 (by decide)
  rw [h]
  rfl

/-! ## C3: terminal job status -/

/-- The total of the two row counters. -/
def runSum (r : IngestRun) : ℕ := r.successfulCount + r.failedCount

/-- Each settled row outcome increments exactly one of the counters. -/
lemma applyOutcome_runSum (acc : IngestRun) (out : RowOutcome) :
    runSum (applyOutcome acc out) = runSum acc + 1 := by
  cases out <;> simp [applyOutcome, runSum] <;> omega

/-- Folding settled outcomes adds their number to the counter total. -/
lemma foldl_applyOutcome_runSum (outs : List RowOutcome) :
    ∀ acc : IngestRun, runSum (outs.foldl applyOutcome acc) = runSum acc + outs.length := by
  induction outs with
  | nil => intro acc; simp
  | cons o os ih =>
    intro acc
    rw [List.foldl_cons, ih, applyOutcome_runSum]
    simp
    omega

/-- One batch adds its row count to the counter total. -/
lemma processBatch_runSum (oracle : ℕ → CreateOutcome) (start : ℕ)
    (batch : List InvoiceData) (acc : IngestRun) :
    runSum (processBatch oracle start batch acc) = runSum acc + batch.length := by
  rw [processBatch, foldl_applyOutcome_runSum]
  simp

/-- The sequential batch loop adds the total row count of its batches. -/
lemma ingestLoop_runSum (oracle : ℕ → CreateOutcome) (bs : List (List InvoiceData)) :
    ∀ (start : ℕ) (acc : IngestRun),
      runSum (ingestLoop oracle start bs acc) =
        runSum acc + (bs.map List.length).sum := by
  induction bs with
  | nil => intro start acc; simp [ingestLoop]
  | cons b bs ih =>
    intro start acc
    rw [ingestLoop, ih, processBatch_runSum]
    simp
    omega

/-- Chunking (with a positive chunk size) preserves the total length. -/
lemma chunksOf_length_sum (n : ℕ) (hn : 0 < n) :
    ∀ (k : ℕ) (l : List InvoiceData), l.length ≤ k →
      ((chunksOf n l).map List.length).sum = l.length := by
  intro k
  induction k with
  | zero =>
    intro l hl
    have : l = [] := List.eq_nil_of_length_eq_zero (by omega)
    subst this
    simp [chunksOf]
  | succ k ih =>
    intro l hl
    match l with
    | [] => simp [chunksOf]
    | x :: xs =>
      rw [chunksOf]
      simp only [List.map_cons, List.sum_cons, List.length_take]
      rw [ih (xs.drop (n - 1)) (by simp [List.length_drop] at hl ⊢; omega)]
      simp [List.length_drop]
      omega

/-- Every row of an ingestion run is counted exactly once: the counters
total the row count. -/
lemma runIngestion_counts (oracle : ℕ → CreateOutcome) (rows : List InvoiceData) :
    (runIngestion oracle rows).successfulCount +
      (runIngestion oracle rows).failedCount = rows.length := by
  have h := ingestLoop_runSum oracle (chunksOf 25 rows) 0 emptyRun
  have h2 := chunksOf_length_sum 25 (by omega) rows.length rows (by omega)
  rw [h2] at h
  simpa [runIngestion, runSum, emptyRun] using h

/-- C3.  For every run that completes the batch loop, the terminal status
is `FAILED` exactly when no row succeeded and there was at least one row,
and `COMPLETED` in every other case (including partial success). -/
theorem ingestion_terminal_status (oracle : ℕ → CreateOutcome) (rows : List InvoiceData) :
    finalStatus (runIngestion oracle rows) =
      if (runIngestion oracle rows).successfulCount = 0 ∧ 0 < rows.length
      then "FAILED" else "COMPLETED" := by
  have hsum := runIngestion_counts oracle rows
  rw [finalStatus]
  by_cases hf : (runIngestion oracle rows).failedCount = 0
  · rw [if_pos (by simpa using hf)]
    have : ¬ ((runIngestion oracle rows).successfulCount = 0 ∧ 0 < rows.length) := by
      rintro ⟨hs, hl⟩
      omega
    rw [if_neg this]
  · rw [if_neg (by simpa using hf)]
    by_cases hs : (runIngestion oracle rows).successfulCount = 0
    · rw [if_pos (by simpa using hs), if_pos ⟨hs, by omega⟩]
    · rw [if_neg (by simpa using hs), if_neg (by rintro ⟨h, -⟩; exact hs h)]

/-! ## C1: invalid rows during ingestion -/

/-- A row whose only violation is a malformed `invoice_id`. -/
def badIdRow : CsvRow := sampleGoodRow ++ [("invoice_id", "not-a-uuid")]

/-- The validated (invalid) invoice for `badIdRow`. -/
def badIdInvoice : InvoiceData := validateInvoiceData badIdRow 2

/-- C1, evaluated on the code: ingesting one parsed row that fails
validation performs no `Invoice.create` call at all — whatever the remote
oracle would answer — so no Invoice record tagged invalid is persisted; the
row is merely counted failed with its validation error list pushed on the
run-local error list (and no exception is raised: the loop completes with
these totals). -/
theorem ingestion_drops_invalid_rows (oracle : ℕ → CreateOutcome) :
    runIngestion oracle [badIdInvoice] =
      { successfulCount := 0, failedCount := 1,
        allErrors := [⟨1, none, badIdInvoice.validationErrors⟩],
        createCalls := [], created := [] } := by
  have hv : badIdInvoice.isValid = false := by decide
  rw [runIngestion, chunksOf.eq_def]
  simp only []
  rw [chunksOf.eq_def]
  simp [ingestLoop, processBatch, processRow, applyOutcome, emptyRun, hv, List.enum]

/-! ## C4: no Invoice outlives its UploadJob -/

/-- Removing invoice records (a filter) preserves the no-orphan invariant. -/
lemma orphanFree_filter_invoices (s : DBState) (p : InvRec → Bool) (hs : orphanFree s) :
    orphanFree { s with invoices := s.invoices.filter p } := by
  intro inv hinv
  exact hs inv (List.mem_filter.mp hinv).1

/-- The cascade loop of `handleDeleteFile` never creates an orphan invoice:
a job record is deleted only after every invoice referencing it was
deleted. -/
lemma deleteJobsLoop_preserves (o : DeleteOracle) :
    ∀ (js : List JobRec) (s : DBState), orphanFree s →
      orphanFree (deleteJobsLoop o js s).1 := by
  intro js
  induction js with
  | nil => intro s hs; exact hs
  | cons j rest ih =>
    intro s hs
    rw [deleteJobsLoop]
    cases hl : o.invListOk j.id with
    | false => simpa [hl] using hs
    | true =>
      simp only [hl, Bool.not_true, Bool.false_eq_true, if_false]
      set assoc := s.invoices.filter (fun inv => inv.uploadJobId == j.id) with hassoc
      set remaining :=
        s.invoices.filter (fun inv => !(inv.uploadJobId == j.id && o.invDeleteOk inv.id))
        with hrem
      set s1 : DBState := if assoc.length > 0 then { s with invoices := remaining } else s
        with hs1def
      have hs1 : orphanFree s1 := by
        rw [hs1def]
        by_cases hA : assoc.length > 0
        · rw [if_pos hA]
          exact orphanFree_filter_invoices s _ hs
        · rw [if_neg hA]
          exact hs
      by_cases hfail : (decide (assoc.length > 0) && decide ((assoc.filter (fun inv => !o.invDeleteOk inv.id)).length > 0)) = true
      · rw [if_pos hfail]
        exact hs1
      · rw [if_neg hfail]
        cases hjd : o.jobDeleteOk j.id with
        | false => simpa [hjd] using hs1
        | true =>
          simp only [hjd, Bool.not_true, Bool.false_eq_true, if_false]
          apply ih
          -- the recursive state deletes job `j`; no surviving invoice references it
          have hnoref : ∀ inv ∈ s1.invoices, inv.uploadJobId ≠ j.id := by
            intro inv hinv heq
            by_cases hA : assoc.length > 0
            · -- all associated invoices were deleted successfully
              have hfz : (assoc.filter (fun inv => !o.invDeleteOk inv.id)).length = 0 := by
                by_contra hnz
                exact hfail (by simp [hA]; omega)
              have hok : ∀ a ∈ assoc, o.invDeleteOk a.id = true := by
                intro a ha
                by_contra hna
                have : a ∈ assoc.filter (fun inv => !o.invDeleteOk inv.id) := by
                  rw [List.mem_filter]
                  exact ⟨ha, by simpa using hna⟩
                rw [List.length_eq_zero] at hfz
                simp [hfz] at this
              rw [hs1def, if_pos hA, hrem] at hinv
              have hmem := List.mem_filter.mp hinv
              have hinassoc : inv ∈ assoc := by
                rw [hassoc, List.mem_filter]
                exact ⟨hmem.1, by simpa using heq⟩
              have := hok inv hinassoc
              have hcond := hmem.2
              rw [heq] at hcond
              simp [this] at hcond
            · -- no invoice referenced the job at all
              rw [hs1def, if_neg hA] at hinv
              have : inv ∈ assoc := by
                rw [hassoc, List.mem_filter]
                exact ⟨hinv, by simpa using heq⟩
              rw [Nat.not_lt, Nat.le_zero, List.length_eq_zero] at hA
              simp [hA] at this
          intro inv hinv
          obtain ⟨jw, hjw, hid⟩ := hs1 inv hinv
          refine ⟨jw, ?_, hid⟩
          rw [List.mem_filter]
          refine ⟨hjw, ?_⟩
          have : jw.id ≠ j.id := by
            rw [hid]
            exact hnoref inv hinv
          simpa using this

/-- C4 amended.  The `handleDeleteFile` cascade (invoices first, then the
job, aborting if any invoice deletion failed) preserves the no-orphan
invariant, for every oracle and state. -/
theorem deleteFile_no_orphans (o : DeleteOracle) (s : DBState) (path : String)
    (hs : orphanFree s) : orphanFree (handleDeleteFile o s path).1 := by
  rw [handleDeleteFile]
  cases hjl : o.jobsListOk with
  | false => simpa [hjl] using hs
  | true =>
    simp only [hjl, Bool.not_true, Bool.false_eq_true, if_false]
    have h := deleteJobsLoop_preserves o (s.jobs.filter (fun j => j.s3Key == path)) s hs
    cases hloop : deleteJobsLoop o (s.jobs.filter (fun j => j.s3Key == path)) s with
    | mk s1 err =>
      rw [hloop] at h
      cases err with
      | some e => exact h
      | none =>
        cases hrm : o.removeOk with
        | false => simpa using h
        | true =>
          simp only [hrm, Bool.not_true, Bool.false_eq_true, if_false]
          intro inv hinv
          exact h inv hinv

/-- A job, an invoice owned by it, and its stored file. -/
def cJob : JobRec := ⟨"job1", "file1.csv"⟩

/-- The invoice owned by `cJob`. -/
def cInv : InvRec := ⟨"inv1", "job1"⟩

/-- A store holding exactly `cJob`, `cInv` and the uploaded file. -/
def cState : DBState := ⟨[cJob], [cInv], ["file1.csv"]⟩

/-- An oracle under which every remote call succeeds. -/
def okOracle : DeleteOracle := ⟨true, fun _ => true, fun _ => true, fun _ => true, true⟩

/-- C4 counterexample.  Clear-processing-history deletes the `UploadJob`
without deleting the `Invoice` that references it: from an orphan-free
state it reaches a state where the invoice has outlived its job, so the
claimed system-wide invariant fails. -/
theorem clear_history_orphans_invoices :
    orphanFree cState ∧
    (handleClearProcessingHistory okOracle cState).1.jobs = [] ∧
    (handleClearProcessingHistory okOracle cState).1.invoices = [cInv] ∧
    ¬ orphanFree (handleClearProcessingHistory okOracle cState).1 := by
  refine ⟨?_, rfl, rfl, ?_⟩
  · intro inv hinv
    refine ⟨cJob, List.mem_singleton_self cJob, ?_⟩
    rw [List.mem_singleton.mp hinv]
    rfl
  · intro h
    obtain ⟨j, hj, -⟩ := h cInv (by decide)
    simp [handleClearProcessingHistory, okOracle, cState] at hj

/-- Witness for C4 (amended): file deletion on the concrete store keeps the
invariant. -/
theorem deleteFile_no_orphans_witness :
    orphanFree (handleDeleteFile okOracle cState "file1.csv").1 :=
  deleteFile_no_orphans okOracle cState "file1.csv"
    (fun inv hinv =>
      ⟨cJob, List.mem_singleton_self cJob, by rw [List.mem_singleton.mp hinv]; rfl⟩)

/-! ## C5: abort on a failed invoice deletion -/

/-- C5.  If the (single) matching job has associated invoices and any of
their concurrent all-settled deletions fails, `handleDeleteFile` surfaces
the count-based error, the job record survives, and the storage object is
untouched. -/
theorem deleteFile_aborts_on_invoice_failure
    (o : DeleteOracle) (s : DBState) (path : String) (j : JobRec)
    (hjl : o.jobsListOk = true)
    (hmatch : s.jobs.filter (fun jb => jb.s3Key == path) = [j])
    (hil : o.invListOk j.id = true)
    (hfail :
      0 < ((s.invoices.filter (fun inv => inv.uploadJobId == j.id)).filter
        (fun inv => !o.invDeleteOk inv.id)).length) :
    (handleDeleteFile o s path).2 =
      some ("Failed to delete " ++
        toString ((s.invoices.filter (fun inv => inv.uploadJobId == j.id)).filter
          (fun inv => !o.invDeleteOk inv.id)).length ++
        " out of " ++
        toString (s.invoices.filter (fun inv => inv.uploadJobId == j.id)).length ++
        " invoices") ∧
    j ∈ (handleDeleteFile o s path).1.jobs ∧
    (handleDeleteFile o s path).1.storageObjects = s.storageObjects := by
  have hassoc : 0 < (s.invoices.filter (fun inv => inv.uploadJobId == j.id)).length :=
    lt_of_lt_of_le hfail (List.length_filter_le _ _)
  have hjmem : j ∈ s.jobs := by
    have : j ∈ s.jobs.filter (fun jb => jb.s3Key == path) := by
      rw [hmatch]
      exact List.mem_singleton_self j
    exact (List.mem_filter.mp this).1
  rw [handleDeleteFile]
  simp only [hjl, Bool.not_true, Bool.false_eq_true, if_false, hmatch]
  rw [deleteJobsLoop]
  simp only [hil, Bool.not_true, Bool.false_eq_true, if_false]
  rw [if_pos (show (decide _ && decide _) = true by
    rw [Bool.and_eq_true, decide_eq_true_eq, decide_eq_true_eq]
    exact ⟨hassoc, hfail⟩), if_pos hassoc]
  exact ⟨rfl, hjmem, rfl⟩

/-- A store where the second invoice's deletion will fail. -/
def cState2 : DBState := ⟨[cJob], [cInv, ⟨"inv2", "job1"⟩], ["file1.csv"]⟩

/-- An oracle that fails exactly the deletion of invoice `inv2`. -/
def failInv2Oracle : DeleteOracle :=
  ⟨true, fun _ => true, fun iid => iid != "inv2", fun _ => true, true⟩

/-- Witness for C5: with one of two invoice deletions failing, the run
reports "Failed to delete 1 out of 2 invoices", keeps the job, and keeps
the storage object. -/
theorem deleteFile_aborts_on_invoice_failure_witness :
    (handleDeleteFile failInv2Oracle cState2 "file1.csv").2 =
      some "Failed to delete 1 out of 2 invoices" ∧
    cJob ∈ (handleDeleteFile failInv2Oracle cState2 "file1.csv").1.jobs ∧
    (handleDeleteFile failInv2Oracle cState2 "file1.csv").1.storageObjects =
      cState2.storageObjects := by
  have h := deleteFile_aborts_on_invoice_failure failInv2Oracle cState2 "file1.csv" cJob
    (by decide) (by decide) (by decide) (by decide)
  exact ⟨by rw [h.1]; rfl, h.2.1, h.2.2⟩

/-! ## C2: which originals the submission deletes -/

/-- Two valid invoices queued for submission. -/
def subA : SubInvoice := ⟨"recA", "INV-A"⟩

/-- The second queued invoice. -/
def subB : SubInvoice := ⟨"recB", "INV-B"⟩

/-- Outcomes where the first copy fails and the second succeeds; every
deletion call succeeds. -/
def interleavedOutcomes : SubmitOutcomes :=
  ⟨fun i => if i == 0 then CreateOutcome.errs "copy failed" else CreateOutcome.ok,
   fun _ => CreateOutcome.ok, true, false⟩

/-- C2, evaluated on the code.  With the copy of the first invoice failing
and the second succeeding (`successCount = 1`), step 2 deletes the first
`successCount` rows positionally: it deletes exactly the invoice whose
copy FAILED (`recA`) and keeps the one whose copy succeeded (`recB`) —
refuting the claim that an invoice whose copy failed is never deleted. -/
theorem submit_deletes_failed_copy_row :
    (handleSubmitInvoices interleavedOutcomes [subA, subB]).successCount = 1 ∧
    (handleSubmitInvoices interleavedOutcomes [subA, subB]).submittedFor = ["recB"] ∧
    (handleSubmitInvoices interleavedOutcomes [subA, subB]).deletedIds = ["recA"] := by
  decide

/-! ## C10: refresh and cache clear always run -/

/-- C10.  Whenever the run reaches steps 3-4 (the refresh does not throw)
and `window.clearUploadedFiles` is installed, both the dashboard refresh
and the uploaded-files cache clear are invoked, for every combination of
per-row copy/delete outcomes — the failures only change the message and
counts. -/
theorem submit_always_refreshes_and_clears (o : SubmitOutcomes)
    (invs : List SubInvoice)
    (hr : o.refreshThrows = false) (hc : o.clearAvailable = true) :
    (handleSubmitInvoices o invs).refreshInvoked = true ∧
    (handleSubmitInvoices o invs).clearInvoked = true := by
  simp [handleSubmitInvoices, hr, hc]

/-- Outcomes where every copy fails. -/
def allCopiesFailOutcomes : SubmitOutcomes :=
  ⟨fun _ => CreateOutcome.errs "copy failed", fun _ => CreateOutcome.ok, true, false⟩

/-- Witness for C10: even with `successCount = 0` (every copy failed) the
refresh and the cache clear are still invoked. -/
theorem submit_always_refreshes_and_clears_witness :
    (handleSubmitInvoices allCopiesFailOutcomes [subA, subB]).successCount = 0 ∧
    (handleSubmitInvoices allCopiesFailOutcomes [subA, subB]).refreshInvoked = true ∧
    (handleSubmitInvoices allCopiesFailOutcomes [subA, subB]).clearInvoked = true :=
  ⟨by decide,
   (submit_always_refreshes_and_clears allCopiesFailOutcomes [subA, subB] rfl rfl).1,
   (submit_always_refreshes_and_clears allCopiesFailOutcomes [subA, subB] rfl rfl).2⟩
